import Mathlib

/-!
Shallow embedding of the Tezos account-bridge transaction pipeline
(`src/families/tezos/bridge/libcore.js`): draft transactions, the
preparation pipeline `prepareTransaction`, the status evaluator
`getTransactionStatus`, and the fee-calculator cache key.

Arbitrary-precision amounts (`BigNumber`) are modelled as `Int`.
Nullable fields are `Option`; JS truthiness of a nullable `BigNumber`
is `Option.isSome` (a `BigNumber` object, even zero, is truthy), and
truthiness of a string is non-emptiness. External asynchronous
collaborators (network-info fetch, recipient validation, gas/storage
estimation, fee pricing) are supplied as environment records holding
their results; a thrown JS error is an `Except.error`.

A sub-account identifier is either absent (`none`) or a non-empty id;
the source tests it by string truthiness, which coincides with
`Option.isSome` for the non-empty identifiers the wallet produces. The
source's reference inequality (`!==`) in the fixed-point check of
`prepareTransaction` is modelled as value inequality; the two agree on
every reachable case, because each resolution step either keeps the
input field itself or replaces an absent field with a present value.
-/

/-- A JS error value; the code discriminates errors by their `name`
(e.g. `"NotEnoughBalance"`). -/
structure ErrorValue where
  name : String
deriving DecidableEq, Repr

/-- The `FeeNotLoaded` error from `@ledgerhq/errors`. -/
def FeeNotLoaded : ErrorValue := ⟨"FeeNotLoaded"⟩

/-- The `FeeTooHigh` warning from `@ledgerhq/errors`. -/
def FeeTooHigh : ErrorValue := ⟨"FeeTooHigh"⟩

/-- Network info fetched by `getAccountNetworkInfo`: a family tag and a
default fee. -/
structure NetworkInfo where
  family : String
  fees : Int
deriving DecidableEq, Repr

/-- A sub-account (token account) of an account: its id and balance. -/
structure SubAccount where
  id : String
  balance : Int
deriving DecidableEq, Repr

/-- The account snapshot consumed by the bridge. -/
structure Account where
  id : String
  balance : Int
  currency : String
  subAccounts : Option (List SubAccount)
  freshAddress : String
deriving DecidableEq, Repr

/-- The Tezos draft transaction record. -/
structure Transaction where
  family : String
  mode : String
  amount : Int
  fees : Option Int
  gasLimit : Option Int
  storageLimit : Option Int
  recipient : String
  networkInfo : Option NetworkInfo
  subAccountId : Option String
  useAllAmount : Bool
deriving DecidableEq, Repr

/-- `createTransaction` from the source: the empty draft
(`subAccountId` and `useAllAmount` are absent, i.e. `none` / `false`). -/
def createTransaction : Transaction :=
  { family := "tezos"
    mode := "send"
    amount := 0
    fees := none
    gasLimit := none
    storageLimit := none
    recipient := ""
    networkInfo := none
    subAccountId := none
    useAllAmount := false }

/-- Result of `validateRecipient`: an optional hard error and an
optional soft warning. -/
structure ValidationResult where
  recipientError : Option ErrorValue
  recipientWarning : Option ErrorValue
deriving DecidableEq, Repr

/-- Gas limit and storage returned by `estimateGasLimitAndStorage`. -/
structure GasStorage where
  gasLimit : Int
  storage : Int
deriving DecidableEq, Repr

/-- How a run of `prepareTransaction` can fail: the network-info fetch
rejects, the `invariant` assertion on the family tag fires, or the
gas/storage estimator rejects. -/
inductive PrepError where
  | fetchFailed (e : ErrorValue)
  | invariantViolation (msg : String)
  | estimateFailed (e : ErrorValue)
deriving DecidableEq, Repr

/-- The external collaborators used by `prepareTransaction`, as the
results they would produce for the account at hand: the network-info
fetch, and per-address recipient validation and gas/storage
estimation. -/
structure PrepEnv where
  getAccountNetworkInfo : Except ErrorValue NetworkInfo
  validateRecipient : String → ValidationResult
  estimateGasLimitAndStorage : String → Except ErrorValue GasStorage

/-- Lines 142-147: take `t.networkInfo` if present, otherwise fetch it
and assert `ni.family === "tezos"` (`invariant` throws on failure). -/
def resolveNetworkInfo (env : PrepEnv) (t : Transaction) :
    Except PrepError NetworkInfo :=
  match t.networkInfo with
  | some ni => .ok ni
  | none =>
    match env.getAccountNetworkInfo with
    | .error e => .error (.fetchFailed e)
    | .ok ni =>
      if ni.family = "tezos" then .ok ni
      else .error (.invariantViolation "tezos networkInfo expected")

/-- Lines 149-158: when gas or storage is missing and a recipient is
present, validate the recipient; on a validation error keep the old
values, otherwise run the estimator (whose rejection propagates). -/
def resolveGasStorage (env : PrepEnv) (t : Transaction) :
    Except PrepError (Option Int × Option Int) :=
  if (t.gasLimit.isNone ∨ t.storageLimit.isNone) ∧ t.recipient ≠ "" then
    match (env.validateRecipient t.recipient).recipientError with
    | some _ => .ok (t.gasLimit, t.storageLimit)
    | none =>
      match env.estimateGasLimitAndStorage t.recipient with
      | .error e => .error (.estimateFailed e)
      | .ok r => .ok (some r.gasLimit, some r.storage)
  else .ok (t.gasLimit, t.storageLimit)

/-- `prepareTransaction` (lines 141-178): resolve network info,
gas/storage, fee default and sub-account recipient default, then return
the input draft unchanged when no resolved field differs from it. -/
def prepareTransaction (env : PrepEnv) (a : Account) (t : Transaction) :
    Except PrepError Transaction :=
  match resolveNetworkInfo env t with
  | .error e => .error e
  | .ok networkInfo =>
    match resolveGasStorage env t with
    | .error e => .error e
    | .ok (gasLimit, storageLimit) =>
      let fees : Option Int := some (t.fees.getD networkInfo.fees)
      let recipient :=
        if t.subAccountId.isSome ∧ t.recipient = "" then a.freshAddress
        else t.recipient
      if t.networkInfo ≠ some networkInfo ∨ t.gasLimit ≠ gasLimit ∨
          t.storageLimit ≠ storageLimit ∨ t.fees ≠ fees ∨
          t.recipient ≠ recipient then
        .ok { t with
              networkInfo := some networkInfo
              storageLimit := storageLimit
              gasLimit := gasLimit
              fees := fees
              recipient := recipient }
      else .ok t

/-- The external collaborators used by `getTransactionStatus`: the
result `calculateFees(a, t)` would settle with, and the result of
`validateRecipient(a.currency, t.recipient)`. -/
structure StatusEnv where
  calculateFees : Except ErrorValue Int
  validateRecipient : ValidationResult

/-- Lines 81-83: `!t.subAccountId ? null : a.subAccounts &&
a.subAccounts.find(ta => ta.id === t.subAccountId)`. -/
def resolveSubAccount (a : Account) (t : Transaction) : Option SubAccount :=
  match t.subAccountId with
  | none => none
  | some sid =>
    match a.subAccounts with
    | none => none
    | some sas => sas.find? (fun ta => ta.id == sid)

/-- Balance of `subAcc || a`: the matched sub-account if any, else the
parent account. -/
def resolvedBalance (a : Account) (t : Transaction) : Int :=
  match resolveSubAccount a t with
  | some sa => sa.balance
  | none => a.balance

/-- Outcome of the fee-estimation block of `getTransactionStatus`
(lines 86-104): the estimated fees and the `fees` / `amount` /
`transaction` error slots. -/
structure FeeOutcome where
  estimatedFees : Int
  errors_fees : Option ErrorValue
  errors_amount : Option ErrorValue
  errors_transaction : Option ErrorValue
deriving DecidableEq, Repr

/-- Lines 86-104: missing fees yield a `FeeNotLoaded` error with
estimated fees 0; otherwise `calculateFees` either supplies the fees or
its error lands in `amount` (when named `NotEnoughBalance`) or in
`transaction`, with estimated fees left at 0. -/
def feeResolution (env : StatusEnv) (t : Transaction) : FeeOutcome :=
  match t.fees with
  | none => ⟨0, some FeeNotLoaded, none, none⟩
  | some _ =>
    match env.calculateFees with
    | .ok f => ⟨f, none, none, none⟩
    | .error e =>
      if e.name = "NotEnoughBalance" then ⟨0, none, some e, none⟩
      else ⟨0, none, none, some e⟩

/-- The transaction status report, with one slot per named error or
warning field. -/
structure TransactionStatus where
  errors_fees : Option ErrorValue
  errors_amount : Option ErrorValue
  errors_transaction : Option ErrorValue
  errors_recipient : Option ErrorValue
  warnings_feeTooHigh : Option ErrorValue
  warnings_recipient : Option ErrorValue
  estimatedFees : Int
  amount : Int
  totalSpent : Int
  recipientIsReadOnly : Bool
deriving DecidableEq, Repr

/-- Decimal digits of a natural number, least significant first
(model of the digit sequence `BigNumber.toString` emits). -/
def natDigitsRev (n : Nat) : List Nat :=
  if h : n = 0 then [] else (n % 10) :: natDigitsRev (n / 10)
decreasing_by exact Nat.div_lt_self (Nat.pos_of_ne_zero h) (by decide)

/-- Reassemble a number from its least-significant-first digit list. -/
def undigitsRev : List Nat → Nat
  | [] => 0
  | d :: ds => d + 10 * undigitsRev ds

/-- Decimal string of a natural number, as `BigNumber.toString`
produces it for non-negative integer values. -/
def natStr (n : Nat) : String :=
  if n = 0 then "0" else ⟨((natDigitsRev n).map Nat.digitChar).reverse⟩

/-- `BigNumber.toString` for integer values: a minus sign followed by
the decimal digits when negative. -/
def bigNumberToString (i : Int) : String :=
  match i with
  | .ofNat n => natStr n
  | .negSucc n => "-" ++ natStr (n + 1)

/-- Serialization of a nullable `BigNumber` as the cache key uses it:
`x ? x.toString() : ""`. -/
def optBigNumberToString (o : Option Int) : String :=
  match o with
  | none => ""
  | some i => bigNumberToString i

/-- The cache key of `calculateFees` (lines 48-53):
the underscore-joined account id, amount, recipient, gas limit, fees
and storage limit. -/
def calculateFeesKey (a : Account) (t : Transaction) : String :=
  a.id ++ "_" ++ bigNumberToString t.amount ++ "_" ++ t.recipient ++ "_" ++
    optBigNumberToString t.gasLimit ++ "_" ++ optBigNumberToString t.fees ++
    "_" ++ optBigNumberToString t.storageLimit

/-- The cache key of `estimateGasLimitAndStorage` (line 36):
`a.id + "|" + addr`. -/
def estimateGasLimitAndStorageKey (a : Account) (addr : String) : String :=
  a.id ++ "|" ++ addr

/-- `getTransactionStatus` (lines 78-139). -/
def getTransactionStatus (env : StatusEnv) (a : Account) (t : Transaction) :
    TransactionStatus :=
  let fr := feeResolution env t
  let estimatedFees := fr.estimatedFees
  let totalSpent :=
    if !t.useAllAmount then t.amount + estimatedFees else resolvedBalance a t
  let amount :=
    if t.useAllAmount then resolvedBalance a t - estimatedFees else t.amount
  { errors_fees := fr.errors_fees
    errors_amount := fr.errors_amount
    errors_transaction := fr.errors_transaction
    errors_recipient := env.validateRecipient.recipientError
    warnings_feeTooHigh :=
      if amount > 0 ∧ estimatedFees * 10 > amount then some FeeTooHigh
      else none
    warnings_recipient := env.validateRecipient.recipientWarning
    estimatedFees := estimatedFees
    amount := amount
    totalSpent := totalSpent
    recipientIsReadOnly := t.subAccountId.isSome }

/-! ### Concrete values used to instantiate the theorems -/

/-- Concrete Tezos network info. -/
def wNetworkInfo : NetworkInfo := ⟨"tezos", 5⟩

/-- Network info carrying a foreign family tag. -/
def wBadNetworkInfo : NetworkInfo := ⟨"bitcoin", 5⟩

/-- Recipient validation that reports neither error nor warning. -/
def wValidationOk : ValidationResult := ⟨none, none⟩

/-- Recipient validation that reports a hard error. -/
def wValidationBad : ValidationResult := ⟨some ⟨"InvalidAddress"⟩, none⟩

/-- Preparation collaborators that all succeed. -/
def wPrepEnv : PrepEnv :=
  ⟨.ok wNetworkInfo, fun _ => wValidationOk, fun _ => .ok ⟨100, 50⟩⟩

/-- Preparation collaborators whose gas/storage estimator rejects. -/
def wPrepEnvEstFail : PrepEnv :=
  ⟨.ok wNetworkInfo, fun _ => wValidationOk, fun _ => .error ⟨"NetworkDown"⟩⟩

/-- Preparation collaborators whose recipient validation fails. -/
def wPrepEnvValFail : PrepEnv :=
  ⟨.ok wNetworkInfo, fun _ => wValidationBad, fun _ => .ok ⟨100, 50⟩⟩

/-- Preparation collaborators whose network-info fetch returns a
foreign family tag. -/
def wPrepEnvBadNet : PrepEnv :=
  ⟨.ok wBadNetworkInfo, fun _ => wValidationOk, fun _ => .ok ⟨100, 50⟩⟩

/-- A concrete account with no sub-accounts. -/
def wAccount : Account := ⟨"acc1", 1000, "tezos", none, "tz1fresh"⟩

/-- An account whose only sub-account does not match id `"sub1"`. -/
def wSubMissAccount : Account :=
  { wAccount with subAccounts := some [⟨"other", 50⟩] }

/-- A draft already at a fixed point of preparation. -/
def wFixedDraft : Transaction :=
  { family := "tezos"
    mode := "send"
    amount := 100
    fees := some 10
    gasLimit := some 300
    storageLimit := some 0
    recipient := "tz1dest"
    networkInfo := some wNetworkInfo
    subAccountId := none
    useAllAmount := false }

/-- A draft still missing its gas and storage limits. -/
def wEstFailDraft : Transaction :=
  { wFixedDraft with gasLimit := none, storageLimit := none }

/-- A sub-account draft with an empty recipient. -/
def wSubDraft : Transaction :=
  { wFixedDraft with subAccountId := some "sub1", recipient := "" }

/-- A draft missing its network info. -/
def wNoNetDraft : Transaction := { wFixedDraft with networkInfo := none }

/-- A sub-account draft in all-balance mode. -/
def wAllDraft : Transaction :=
  { wFixedDraft with subAccountId := some "sub1", useAllAmount := true }

/-- Status collaborators where fee pricing succeeds with fee 7. -/
def wStatusEnv : StatusEnv := ⟨.ok 7, wValidationOk⟩

/-- Status collaborators where fee pricing rejects with
`NotEnoughBalance`. -/
def wStatusEnvNEB : StatusEnv := ⟨.error ⟨"NotEnoughBalance"⟩, wValidationOk⟩

/-- Status collaborators where fee pricing rejects with a generic
failure. -/
def wStatusEnvOtherFail : StatusEnv :=
  ⟨.error ⟨"SomeOtherFailure"⟩, wValidationOk⟩

/-! ### Properties of the decimal serialization -/

theorem undigitsRev_natDigitsRev (n : Nat) : undigitsRev (natDigitsRev n) = n := by
  induction n using Nat.strong_induction_on with
  | _ n ih =>
    rw [natDigitsRev]
    by_cases h : n = 0
    · simp [h, undigitsRev]
    · simp only [h, dite_false, undigitsRev,
        ih (n / 10) (Nat.div_lt_self (Nat.pos_of_ne_zero h) (by decide))]
      omega

theorem natDigitsRev_inj {n m : Nat} (h : natDigitsRev n = natDigitsRev m) :
    n = m := by
  have hn := undigitsRev_natDigitsRev n
  have hm := undigitsRev_natDigitsRev m
  rw [h] at hn
  exact hn.symm.trans hm

theorem natDigitsRev_lt (n : Nat) : ∀ d ∈ natDigitsRev n, d < 10 := by
  induction n using Nat.strong_induction_on with
  | _ n ih =>
    rw [natDigitsRev]
    by_cases h : n = 0
    · simp [h]
    · simp only [h, dite_false, List.mem_cons]
      intro d hd
      rcases hd with hd | hd
      · exact hd ▸ Nat.mod_lt n (by decide)
      · exact ih (n / 10) (Nat.div_lt_self (Nat.pos_of_ne_zero h) (by decide)) d hd

theorem natDigitsRev_ne_nil {n : Nat} (h : n ≠ 0) : natDigitsRev n ≠ [] := by
  rw [natDigitsRev]
  simp [h]

theorem digitChar_inj10 :
    ∀ d1 < 10, ∀ d2 < 10, Nat.digitChar d1 = Nat.digitChar d2 → d1 = d2 := by
  decide

theorem digitChar_ne_dash : ∀ d < 10, Nat.digitChar d ≠ '-' := by
  decide

theorem map_digitChar_inj :
    ∀ l1 l2 : List Nat, (∀ d ∈ l1, d < 10) → (∀ d ∈ l2, d < 10) →
      l1.map Nat.digitChar = l2.map Nat.digitChar → l1 = l2 := by
  intro l1
  induction l1 with
  | nil =>
    intro l2 _ _ h
    cases l2 with
    | nil => rfl
    | cons d ds => simp at h
  | cons d ds ih =>
    intro l2 h1 h2 h
    cases l2 with
    | nil => simp at h
    | cons e es =>
      simp only [List.map_cons, List.cons.injEq] at h
      have hd : d = e :=
        digitChar_inj10 d (h1 d (List.mem_cons_self d ds))
          e (h2 e (List.mem_cons_self e es)) h.1
      have ht : ds = es :=
        ih es (fun x hx => h1 x (List.mem_cons_of_mem d hx))
          (fun x hx => h2 x (List.mem_cons_of_mem e hx)) h.2
      rw [hd, ht]

theorem string_mk_data (l : List Char) : (String.mk l).data = l := rfl

theorem string_eq_of_data {x y : String} (h : x.data = y.data) : x = y := by
  cases x
  cases y
  exact congrArg String.mk h

theorem natStr_data_zero : (natStr 0).data = ['0'] := rfl

theorem natStr_data_pos {n : Nat} (h : n ≠ 0) :
    (natStr n).data = ((natDigitsRev n).map Nat.digitChar).reverse := by
  simp [natStr, h]

theorem natStr_ne_empty (n : Nat) : natStr n ≠ "" := by
  intro h
  have hd := congrArg String.data h
  by_cases h0 : n = 0
  · rw [h0] at hd
    simp [natStr_data_zero] at hd
  · rw [natStr_data_pos h0] at hd
    have hnil : natDigitsRev n = [] := by
      have hlen := congrArg List.length hd
      simpa using hlen
    exact natDigitsRev_ne_nil h0 hnil

theorem dash_not_mem_natStr (n : Nat) : '-' ∉ (natStr n).data := by
  by_cases h0 : n = 0
  · rw [h0, natStr_data_zero]
    decide
  · rw [natStr_data_pos h0]
    intro hmem
    rw [List.mem_reverse, List.mem_map] at hmem
    obtain ⟨d, hd, hdc⟩ := hmem
    exact digitChar_ne_dash d (natDigitsRev_lt n d hd) hdc

theorem natStr_data_inj {n m : Nat} (h : (natStr n).data = (natStr m).data) :
    n = m := by
  by_cases hn : n = 0 <;> by_cases hm : m = 0
  · rw [hn, hm]
  · exfalso
    rw [hn, natStr_data_zero, natStr_data_pos hm] at h
    have hmap : (natDigitsRev m).map Nat.digitChar = ['0'] := by
      have := congrArg List.reverse h
      simpa using this.symm
    have : natDigitsRev m = [0] :=
      map_digitChar_inj (natDigitsRev m) [0] (natDigitsRev_lt m)
        (by decide) (by simpa using hmap)
    have hm0 := undigitsRev_natDigitsRev m
    rw [this] at hm0
    exact hm (hm0.symm.trans (by rfl))
  · exfalso
    rw [hm, natStr_data_zero, natStr_data_pos hn] at h
    have hmap : (natDigitsRev n).map Nat.digitChar = ['0'] := by
      have := congrArg List.reverse h
      simpa using this
    have : natDigitsRev n = [0] :=
      map_digitChar_inj (natDigitsRev n) [0] (natDigitsRev_lt n)
        (by decide) (by simpa using hmap)
    have hn0 := undigitsRev_natDigitsRev n
    rw [this] at hn0
    exact hn (hn0.symm.trans (by rfl))
  · rw [natStr_data_pos hn, natStr_data_pos hm] at h
    have hmap := List.reverse_injective h
    exact natDigitsRev_inj
      (map_digitChar_inj _ _ (natDigitsRev_lt n) (natDigitsRev_lt m) hmap)

theorem natStr_inj {n m : Nat} (h : natStr n = natStr m) : n = m :=
  natStr_data_inj (congrArg String.data h)

theorem string_data_append (x y : String) : (x ++ y).data = x.data ++ y.data := rfl

theorem bigNumberToString_inj {i j : Int}
    (h : bigNumberToString i = bigNumberToString j) : i = j := by
  cases i with
  | ofNat n =>
    cases j with
    | ofNat m =>
      simp only [bigNumberToString] at h
      rw [natStr_inj h]
    | negSucc m =>
      exfalso
      simp only [bigNumberToString] at h
      have hd := congrArg String.data h
      rw [string_data_append] at hd
      have hmem : '-' ∈ (natStr n).data := by
        rw [hd]
        exact List.mem_append_left _ (by decide)
      exact dash_not_mem_natStr n hmem
  | negSucc n =>
    cases j with
    | ofNat m =>
      exfalso
      simp only [bigNumberToString] at h
      have hd := congrArg String.data h
      rw [string_data_append] at hd
      have hmem : '-' ∈ (natStr m).data := by
        rw [← hd]
        exact List.mem_append_left _ (by decide)
      exact dash_not_mem_natStr m hmem
    | negSucc m =>
      simp only [bigNumberToString] at h
      have hd := congrArg String.data h
      rw [string_data_append, string_data_append] at hd
      have hnm : (natStr (n + 1)).data = (natStr (m + 1)).data :=
        List.append_cancel_left hd
      have hnm2 := natStr_data_inj hnm
      have : n = m := by omega
      rw [this]

theorem bigNumberToString_ne_empty (i : Int) : bigNumberToString i ≠ "" := by
  cases i with
  | ofNat n => exact natStr_ne_empty n
  | negSucc n =>
    intro h
    simp only [bigNumberToString] at h
    have hd := congrArg String.data h
    rw [string_data_append] at hd
    exact List.cons_ne_nil _ _ hd

theorem optBigNumberToString_inj {o p : Option Int}
    (h : optBigNumberToString o = optBigNumberToString p) : o = p := by
  cases o with
  | none =>
    cases p with
    | none => rfl
    | some j => exact absurd h.symm (bigNumberToString_ne_empty j)
  | some i =>
    cases p with
    | none => exact absurd h (bigNumberToString_ne_empty i)
    | some j => rw [bigNumberToString_inj h]

theorem str_append_left_cancel {A x y : String} (h : A ++ x = A ++ y) :
    x = y := by
  apply string_eq_of_data
  have hd := congrArg String.data h
  rw [string_data_append, string_data_append] at hd
  exact List.append_cancel_left hd

theorem str_append_right_cancel {B x y : String} (h : x ++ B = y ++ B) :
    x = y := by
  apply string_eq_of_data
  have hd := congrArg String.data h
  rw [string_data_append, string_data_append] at hd
  exact List.append_cancel_right hd

theorem str_append_assoc (x y z : String) : x ++ y ++ z = x ++ (y ++ z) := by
  apply string_eq_of_data
  simp only [string_data_append, List.append_assoc]

/-! ### Claim theorems -/

/-- Claim C1: for every account `a` and draft `t` at a fixed point
(network info, fees, gas limit and storage limit all present, and `t`
not a sub-account draft with an empty recipient), `prepareTransaction`
returns the very draft `t` unchanged. -/
theorem prepareTransaction_fixedPoint (env : PrepEnv) (a : Account)
    (t : Transaction) (hni : t.networkInfo.isSome) (hf : t.fees.isSome)
    (hg : t.gasLimit.isSome) (hs : t.storageLimit.isSome)
    (hr : ¬(t.subAccountId.isSome ∧ t.recipient = "")) :
    prepareTransaction env a t = Except.ok t := by
  obtain ⟨ni, hni'⟩ := Option.isSome_iff_exists.mp hni
  obtain ⟨f, hf'⟩ := Option.isSome_iff_exists.mp hf
  obtain ⟨g, hg'⟩ := Option.isSome_iff_exists.mp hg
  obtain ⟨s, hs'⟩ := Option.isSome_iff_exists.mp hs
  have h1 : resolveNetworkInfo env t = .ok ni := by
    unfold resolveNetworkInfo
    rw [hni']
  have h2 : resolveGasStorage env t = .ok (t.gasLimit, t.storageLimit) := by
    unfold resolveGasStorage
    rw [if_neg]
    simp [hg', hs']
  unfold prepareTransaction
  rw [h1, h2]
  simp only [hni', hf', Option.getD_some]
  rw [if_neg hr, if_neg]
  simp

/-- Witness for claim C1 at a concrete fixed-point draft. -/
theorem prepareTransaction_fixedPoint_witness :
    (wFixedDraft.networkInfo.isSome ∧ wFixedDraft.fees.isSome ∧
      wFixedDraft.gasLimit.isSome ∧ wFixedDraft.storageLimit.isSome ∧
      ¬(wFixedDraft.subAccountId.isSome ∧ wFixedDraft.recipient = "")) ∧
    prepareTransaction wPrepEnv wAccount wFixedDraft = Except.ok wFixedDraft :=
  ⟨by decide,
    prepareTransaction_fixedPoint wPrepEnv wAccount wFixedDraft
      (by decide) (by decide) (by decide) (by decide) (by decide)⟩

/-- Claim C2: `getTransactionStatus` computes `totalSpent` as
`amount + estimatedFees` (or the resolved account's balance in
all-balance mode) and the final amount as the draft amount (or
balance minus estimated fees in all-balance mode). -/
theorem getTransactionStatus_totals (env : StatusEnv) (a : Account)
    (t : Transaction) :
    (getTransactionStatus env a t).totalSpent =
      (if t.useAllAmount then resolvedBalance a t
       else t.amount + (getTransactionStatus env a t).estimatedFees) ∧
    (getTransactionStatus env a t).amount =
      (if t.useAllAmount then
        resolvedBalance a t - (getTransactionStatus env a t).estimatedFees
       else t.amount) := by
  unfold getTransactionStatus
  cases t.useAllAmount <;> simp

/-- Claim C4: the `feeTooHigh` warning is recorded iff the final amount
is positive and ten times the estimated fees strictly exceeds it. -/
theorem getTransactionStatus_feeTooHigh (env : StatusEnv) (a : Account)
    (t : Transaction) :
    (getTransactionStatus env a t).warnings_feeTooHigh = some FeeTooHigh ↔
      ((getTransactionStatus env a t).amount > 0 ∧
        (getTransactionStatus env a t).estimatedFees * 10 >
          (getTransactionStatus env a t).amount) := by
  unfold getTransactionStatus
  simp only
  split
  · simp_all
  · simp_all

/-- Claim C5: on a draft with `fees = null` the status records a
`FeeNotLoaded` error in `errors.fees`, is independent of the Fee
Calculator's result, and uses 0 as estimated fees in `totalSpent` and
the final amount. -/
theorem getTransactionStatus_feesNotLoaded (env env' : StatusEnv)
    (a : Account) (t : Transaction) (hf : t.fees = none)
    (hv : env.validateRecipient = env'.validateRecipient) :
    (getTransactionStatus env a t).errors_fees = some FeeNotLoaded ∧
    (getTransactionStatus env a t).estimatedFees = 0 ∧
    getTransactionStatus env a t = getTransactionStatus env' a t ∧
    (getTransactionStatus env a t).totalSpent =
      (if t.useAllAmount then resolvedBalance a t else t.amount) ∧
    (getTransactionStatus env a t).amount =
      (if t.useAllAmount then resolvedBalance a t else t.amount) := by
  unfold getTransactionStatus feeResolution
  rw [hf, hv]
  cases t.useAllAmount <;> simp

/-- Witness for claim C5 at the freshly created draft, whose fees are
absent. -/
theorem getTransactionStatus_feesNotLoaded_witness :
    (createTransaction.fees = none ∧
      wStatusEnv.validateRecipient = wStatusEnvNEB.validateRecipient) ∧
    (getTransactionStatus wStatusEnv wAccount createTransaction).errors_fees =
      some FeeNotLoaded ∧
    (getTransactionStatus wStatusEnv wAccount createTransaction).estimatedFees
      = 0 ∧
    getTransactionStatus wStatusEnv wAccount createTransaction =
      getTransactionStatus wStatusEnvNEB wAccount createTransaction ∧
    (getTransactionStatus wStatusEnv wAccount createTransaction).totalSpent =
      (if createTransaction.useAllAmount then
        resolvedBalance wAccount createTransaction
       else createTransaction.amount) ∧
    (getTransactionStatus wStatusEnv wAccount createTransaction).amount =
      (if createTransaction.useAllAmount then
        resolvedBalance wAccount createTransaction
       else createTransaction.amount) :=
  ⟨⟨rfl, rfl⟩,
    getTransactionStatus_feesNotLoaded wStatusEnv wStatusEnvNEB wAccount
      createTransaction rfl rfl⟩

/-- Claim C6: when fees are present and the Fee Calculator rejects, an
error named `NotEnoughBalance` is attributed to `errors.amount`, any
other error to `errors.transaction`, and the status is still produced
with estimated fees 0. -/
theorem getTransactionStatus_feeFailure (env : StatusEnv) (a : Account)
    (t : Transaction) (e : ErrorValue) (hf : t.fees.isSome)
    (he : env.calculateFees = .error e) :
    (e.name = "NotEnoughBalance" →
      (getTransactionStatus env a t).errors_amount = some e ∧
      (getTransactionStatus env a t).errors_transaction = none) ∧
    (e.name ≠ "NotEnoughBalance" →
      (getTransactionStatus env a t).errors_transaction = some e ∧
      (getTransactionStatus env a t).errors_amount = none) ∧
    (getTransactionStatus env a t).estimatedFees = 0 := by
  obtain ⟨f, hf'⟩ := Option.isSome_iff_exists.mp hf
  unfold getTransactionStatus feeResolution
  rw [hf', he]
  refine ⟨fun hn => ?_, fun hn => ?_, ?_⟩
  · simp [hn]
  · simp [hn]
  · by_cases hn : e.name = "NotEnoughBalance" <;> simp [hn]

/-- Witness for claim C6: a `NotEnoughBalance` rejection lands in
`errors.amount` and a generic one in `errors.transaction`. -/
theorem getTransactionStatus_feeFailure_witness :
    (wFixedDraft.fees.isSome ∧
      wStatusEnvNEB.calculateFees = .error ⟨"NotEnoughBalance"⟩ ∧
      wStatusEnvOtherFail.calculateFees = .error ⟨"SomeOtherFailure"⟩) ∧
    ((getTransactionStatus wStatusEnvNEB wAccount wFixedDraft).errors_amount =
        some ⟨"NotEnoughBalance"⟩ ∧
      (getTransactionStatus wStatusEnvNEB wAccount
        wFixedDraft).errors_transaction = none) ∧
    ((getTransactionStatus wStatusEnvOtherFail wAccount
        wFixedDraft).errors_transaction = some ⟨"SomeOtherFailure"⟩ ∧
      (getTransactionStatus wStatusEnvOtherFail wAccount
        wFixedDraft).errors_amount = none) :=
  ⟨⟨by decide, rfl, rfl⟩,
    (getTransactionStatus_feeFailure wStatusEnvNEB wAccount wFixedDraft
      ⟨"NotEnoughBalance"⟩ (by decide) rfl).1 rfl,
    (getTransactionStatus_feeFailure wStatusEnvOtherFail wAccount wFixedDraft
      ⟨"SomeOtherFailure"⟩ (by decide) rfl).2.1 (by decide)⟩

/-- When recipient validation reports a hard error, the gas/storage
block is a no-op keeping the draft's previous values. -/
theorem resolveGasStorage_of_valError (env : PrepEnv) (t : Transaction)
    (h : (env.validateRecipient t.recipient).recipientError.isSome) :
    resolveGasStorage env t = .ok (t.gasLimit, t.storageLimit) := by
  obtain ⟨e, he⟩ := Option.isSome_iff_exists.mp h
  unfold resolveGasStorage
  split
  · rw [he]
  · rfl

/-- Claim C3 counterexample: with a valid recipient, missing gas and
storage, and a rejecting estimator, preparation does not complete with
a draft — the estimator's failure propagates out of
`prepareTransaction`. -/
theorem prepareTransaction_estimatorFailure_cex :
    prepareTransaction wPrepEnvEstFail wAccount wEstFailDraft =
      Except.error (PrepError.estimateFailed ⟨"NetworkDown"⟩) := by
  rfl

/-- Claim C3 amended: preparation swallows recipient-validation
failures as no-ops that leave gas and storage limits as they were and
still returns a draft; a failure of the Gas/Storage Estimator itself,
however, propagates and preparation fails with it. -/
theorem prepareTransaction_failurePropagation (env : PrepEnv) (a : Account)
    (t : Transaction) (hni : t.networkInfo.isSome) :
    ((env.validateRecipient t.recipient).recipientError.isSome →
      ∃ t', prepareTransaction env a t = .ok t' ∧
        t'.gasLimit = t.gasLimit ∧ t'.storageLimit = t.storageLimit) ∧
    (∀ e, (t.gasLimit.isNone ∨ t.storageLimit.isNone) → t.recipient ≠ "" →
      (env.validateRecipient t.recipient).recipientError = none →
      env.estimateGasLimitAndStorage t.recipient = .error e →
      prepareTransaction env a t = .error (.estimateFailed e)) := by
  obtain ⟨ni, hni'⟩ := Option.isSome_iff_exists.mp hni
  have h1 : resolveNetworkInfo env t = .ok ni := by
    unfold resolveNetworkInfo
    rw [hni']
  constructor
  · intro hval
    unfold prepareTransaction
    rw [h1, resolveGasStorage_of_valError env t hval]
    dsimp only
    split <;> split <;> exact ⟨_, rfl, rfl, rfl⟩
  · intro e hmiss hrec hvalnone hest
    have h2 : resolveGasStorage env t = .error (.estimateFailed e) := by
      unfold resolveGasStorage
      rw [if_pos ⟨hmiss, hrec⟩, hvalnone, hest]
    unfold prepareTransaction
    rw [h1, h2]

/-- Witness for the amended claim C3, at a concrete draft whose
estimator rejects and whose recipient validation fails. -/
theorem prepareTransaction_failurePropagation_witness :
    wEstFailDraft.networkInfo.isSome ∧
    prepareTransaction wPrepEnvEstFail wAccount wEstFailDraft =
      .error (.estimateFailed ⟨"NetworkDown"⟩) ∧
    prepareTransaction wPrepEnvValFail wAccount wEstFailDraft =
      .ok wEstFailDraft :=
  ⟨by decide,
    (prepareTransaction_failurePropagation wPrepEnvEstFail wAccount
      wEstFailDraft (by decide)).2 ⟨"NetworkDown"⟩ (by decide) (by decide)
      rfl rfl,
    by rfl⟩

/-- Claim C7: a sub-account draft with an empty recipient is prepared
to carry the account's fresh address as recipient, and the status
reports `recipientIsReadOnly` exactly when the draft carries a
sub-account identifier. -/
theorem subAccount_recipient_readOnly (penv : PrepEnv) (env : StatusEnv)
    (a : Account) (t : Transaction) :
    (t.subAccountId.isSome → t.recipient = "" →
      ∀ t', prepareTransaction penv a t = .ok t' →
        t'.recipient = a.freshAddress) ∧
    ((getTransactionStatus env a t).recipientIsReadOnly = true ↔
      t.subAccountId.isSome) := by
  constructor
  · intro hsub hrec t' hok
    unfold prepareTransaction at hok
    cases hni : resolveNetworkInfo penv t with
    | error e => rw [hni] at hok; exact absurd hok (by simp)
    | ok ni =>
      rw [hni] at hok
      cases hgs : resolveGasStorage penv t with
      | error e => rw [hgs] at hok; exact absurd hok (by simp)
      | ok p =>
        rw [hgs] at hok
        dsimp only at hok
        rw [hrec] at hok
        simp only [hsub, true_and, if_true, eq_self_iff_true] at hok
        split at hok
        · cases hok
          rfl
        · rename_i hcond
          push_neg at hcond
          cases hok
          rw [hrec]
          exact hcond.2.2.2.2
  · unfold getTransactionStatus
    simp

/-- Witness for claim C7 at a concrete sub-account draft with an empty
recipient. -/
theorem subAccount_recipient_readOnly_witness :
    (wSubDraft.subAccountId.isSome ∧ wSubDraft.recipient = "") ∧
    prepareTransaction wPrepEnv wAccount wSubDraft =
      .ok { wSubDraft with recipient := "tz1fresh" } ∧
    ({ wSubDraft with recipient := "tz1fresh" } : Transaction).recipient =
      wAccount.freshAddress ∧
    ((getTransactionStatus wStatusEnv wAccount wSubDraft).recipientIsReadOnly
        = true ↔ wSubDraft.subAccountId.isSome) :=
  ⟨⟨by decide, rfl⟩, by rfl,
    (subAccount_recipient_readOnly wPrepEnv wStatusEnv wAccount wSubDraft).1
      (by decide) rfl { wSubDraft with recipient := "tz1fresh" } (by rfl),
    (subAccount_recipient_readOnly wPrepEnv wStatusEnv wAccount wSubDraft).2⟩

/-- The gas/storage block can fail only with an estimator error, never
with an `invariant` assertion failure. -/
theorem resolveGasStorage_no_invariant (env : PrepEnv) (t : Transaction)
    (s : String) :
    resolveGasStorage env t ≠ .error (.invariantViolation s) := by
  unfold resolveGasStorage
  split
  · split
    · simp
    · split <;> simp
  · simp

/-- Once network info and gas/storage resolve, preparation always
returns a draft. -/
theorem prepareTransaction_ok_of_resolved (env : PrepEnv) (a : Account)
    (t : Transaction) (ni : NetworkInfo) (p : Option Int × Option Int)
    (h1 : resolveNetworkInfo env t = .ok ni)
    (h2 : resolveGasStorage env t = .ok p) :
    ∃ t', prepareTransaction env a t = .ok t' := by
  obtain ⟨g, s⟩ := p
  unfold prepareTransaction
  rw [h1, h2]
  dsimp only
  split <;> split <;> exact ⟨_, rfl⟩

/-- Claim C8: with `networkInfo` absent, preparation fetches it and
aborts with the `invariant` assertion failure exactly when the fetched
family tag is not `"tezos"`; with `networkInfo` present the result does
not depend on the fetch collaborator and no assertion failure can
occur. -/
theorem networkInfo_fetch_invariant (env env' : PrepEnv) (a : Account)
    (t : Transaction) :
    (t.networkInfo = none → ∀ ni, env.getAccountNetworkInfo = .ok ni →
      (ni.family ≠ "tezos" ↔
        prepareTransaction env a t =
          .error (.invariantViolation "tezos networkInfo expected"))) ∧
    (t.networkInfo.isSome →
      env.validateRecipient = env'.validateRecipient →
      env.estimateGasLimitAndStorage = env'.estimateGasLimitAndStorage →
      prepareTransaction env a t = prepareTransaction env' a t ∧
      ∀ s, prepareTransaction env a t ≠
        .error (.invariantViolation s)) := by
  constructor
  · intro hni ni hok
    constructor
    · intro hfam
      have h1 : resolveNetworkInfo env t =
          .error (.invariantViolation "tezos networkInfo expected") := by
        unfold resolveNetworkInfo
        rw [hni, hok]
        dsimp only
        rw [if_neg hfam]
      unfold prepareTransaction
      rw [h1]
    · intro hprep
      intro hfam
      have h1 : resolveNetworkInfo env t = .ok ni := by
        unfold resolveNetworkInfo
        rw [hni, hok]
        dsimp only
        rw [if_pos hfam]
      cases hgs : resolveGasStorage env t with
      | error e =>
        unfold prepareTransaction at hprep
        rw [h1, hgs] at hprep
        dsimp only at hprep
        cases hprep
        exact resolveGasStorage_no_invariant env t _ hgs
      | ok p =>
        obtain ⟨t', ht'⟩ :=
          prepareTransaction_ok_of_resolved env a t ni p h1 hgs
        rw [ht'] at hprep
        exact absurd hprep (by simp)
  · intro hsome hval hest
    obtain ⟨ni, hni'⟩ := Option.isSome_iff_exists.mp hsome
    have h1 : resolveNetworkInfo env t = .ok ni := by
      unfold resolveNetworkInfo
      rw [hni']
    have h1' : resolveNetworkInfo env' t = .ok ni := by
      unfold resolveNetworkInfo
      rw [hni']
    have h2 : resolveGasStorage env t = resolveGasStorage env' t := by
      unfold resolveGasStorage
      rw [hval, hest]
    constructor
    · unfold prepareTransaction
      rw [h1, h1', h2]
    · intro s hprep
      cases hgs : resolveGasStorage env t with
      | error e =>
        unfold prepareTransaction at hprep
        rw [h1, hgs] at hprep
        dsimp only at hprep
        cases hprep
        exact resolveGasStorage_no_invariant env t _ hgs
      | ok p =>
        obtain ⟨t', ht'⟩ :=
          prepareTransaction_ok_of_resolved env a t ni p h1 hgs
        rw [ht'] at hprep
        exact absurd hprep (by simp)

/-- Witness for claim C8: a fetched foreign family tag aborts
preparation with the assertion failure, and a present network info
makes the result independent of the fetch collaborator. -/
theorem networkInfo_fetch_invariant_witness :
    (wNoNetDraft.networkInfo = none ∧
      wPrepEnvBadNet.getAccountNetworkInfo = .ok wBadNetworkInfo ∧
      wBadNetworkInfo.family ≠ "tezos") ∧
    prepareTransaction wPrepEnvBadNet wAccount wNoNetDraft =
      .error (.invariantViolation "tezos networkInfo expected") ∧
    prepareTransaction wPrepEnv wAccount wFixedDraft =
      prepareTransaction wPrepEnvBadNet wAccount wFixedDraft :=
  ⟨⟨rfl, rfl, by decide⟩,
    ((networkInfo_fetch_invariant wPrepEnvBadNet wPrepEnvBadNet wAccount
      wNoNetDraft).1 rfl wBadNetworkInfo rfl).mp (by decide),
    ((networkInfo_fetch_invariant wPrepEnv wPrepEnvBadNet wAccount
      wFixedDraft).2 (by decide) rfl rfl).1⟩

/-- Claim C9: two fee-calculation inputs with the same account id that
agree on four of the five fields `amount`, `recipient`, `gasLimit`,
`storageLimit`, `fees` and differ on the remaining one always get
different cache keys, so the change forces recomputation. -/
theorem calculateFeesKey_sensitive (a a' : Account) (t t' : Transaction)
    (hid : a.id = a'.id)
    (hdiff :
      (t.amount ≠ t'.amount ∧ t.recipient = t'.recipient ∧
        t.gasLimit = t'.gasLimit ∧ t.storageLimit = t'.storageLimit ∧
        t.fees = t'.fees) ∨
      (t.amount = t'.amount ∧ t.recipient ≠ t'.recipient ∧
        t.gasLimit = t'.gasLimit ∧ t.storageLimit = t'.storageLimit ∧
        t.fees = t'.fees) ∨
      (t.amount = t'.amount ∧ t.recipient = t'.recipient ∧
        t.gasLimit ≠ t'.gasLimit ∧ t.storageLimit = t'.storageLimit ∧
        t.fees = t'.fees) ∨
      (t.amount = t'.amount ∧ t.recipient = t'.recipient ∧
        t.gasLimit = t'.gasLimit ∧ t.storageLimit ≠ t'.storageLimit ∧
        t.fees = t'.fees) ∨
      (t.amount = t'.amount ∧ t.recipient = t'.recipient ∧
        t.gasLimit = t'.gasLimit ∧ t.storageLimit = t'.storageLimit ∧
        t.fees ≠ t'.fees)) :
    calculateFeesKey a t ≠ calculateFeesKey a' t' := by
  intro h
  unfold calculateFeesKey at h
  rw [hid] at h
  rcases hdiff with ⟨h1, h2, h3, h4, h5⟩ | ⟨h1, h2, h3, h4, h5⟩ |
    ⟨h1, h2, h3, h4, h5⟩ | ⟨h1, h2, h3, h4, h5⟩ | ⟨h1, h2, h3, h4, h5⟩
  · rw [h2, h3, h4, h5] at h
    simp only [str_append_assoc] at h
    exact h1 (bigNumberToString_inj
      (str_append_right_cancel
        (str_append_left_cancel (str_append_left_cancel h))))
  · rw [h1, h3, h4, h5] at h
    simp only [str_append_assoc] at h
    exact h2 (str_append_right_cancel
      (str_append_left_cancel (str_append_left_cancel
        (str_append_left_cancel (str_append_left_cancel h)))))
  · rw [h1, h2, h4, h5] at h
    simp only [str_append_assoc] at h
    exact h3 (optBigNumberToString_inj
      (str_append_right_cancel
        (str_append_left_cancel (str_append_left_cancel
          (str_append_left_cancel (str_append_left_cancel
            (str_append_left_cancel (str_append_left_cancel h))))))))
  · rw [h1, h2, h3, h5] at h
    simp only [str_append_assoc] at h
    exact h4 (optBigNumberToString_inj
      (str_append_left_cancel (str_append_left_cancel
        (str_append_left_cancel (str_append_left_cancel
          (str_append_left_cancel (str_append_left_cancel
            (str_append_left_cancel (str_append_left_cancel
              (str_append_left_cancel (str_append_left_cancel h)))))))))))
  · rw [h1, h2, h3, h4] at h
    simp only [str_append_assoc] at h
    exact h5 (optBigNumberToString_inj
      (str_append_right_cancel
        (str_append_left_cancel (str_append_left_cancel
          (str_append_left_cancel (str_append_left_cancel
            (str_append_left_cancel (str_append_left_cancel
              (str_append_left_cancel (str_append_left_cancel h))))))))))

/-- Witness for claim C9: changing only the amount changes the key. -/
theorem calculateFeesKey_sensitive_witness :
    wAccount.id = wAccount.id ∧
    calculateFeesKey wAccount wFixedDraft ≠
      calculateFeesKey wAccount { wFixedDraft with amount := 101 } :=
  ⟨rfl,
    calculateFeesKey_sensitive wAccount wAccount wFixedDraft
      { wFixedDraft with amount := 101 } rfl
      (Or.inl ⟨by decide, rfl, rfl, rfl, rfl⟩)⟩

/-- Claim C10: when the draft names a sub-account the account does not
have, the status evaluator silently falls back to the parent account:
the status equals the one computed without any sub-account id except
that `recipientIsReadOnly` is still true, and in all-balance mode the
totals use the parent balance, with no extra error recorded. -/
theorem subAccount_missing_fallback (env : StatusEnv) (a : Account)
    (t : Transaction) (sid : String) (hsid : t.subAccountId = some sid)
    (hmiss : ∀ sa ∈ a.subAccounts.getD [], sa.id ≠ sid) :
    resolveSubAccount a t = none ∧
    getTransactionStatus env a t =
      { getTransactionStatus env a { t with subAccountId := none } with
        recipientIsReadOnly := true } ∧
    (t.useAllAmount = true →
      (getTransactionStatus env a t).totalSpent = a.balance ∧
      (getTransactionStatus env a t).amount =
        a.balance - (getTransactionStatus env a t).estimatedFees) := by
  have hsub : resolveSubAccount a t = none := by
    unfold resolveSubAccount
    rw [hsid]
    cases hsa : a.subAccounts with
    | none => rfl
    | some l =>
      dsimp only
      rw [List.find?_eq_none]
      intro x hx
      simp only [beq_iff_eq]
      have hmiss' : ∀ sa ∈ l, sa.id ≠ sid := by
        rw [hsa] at hmiss
        simpa using hmiss
      exact hmiss' x hx
  have hbal : resolvedBalance a t = a.balance := by
    unfold resolvedBalance
    rw [hsub]
  have hrb : resolvedBalance a { t with subAccountId := none } =
      a.balance := rfl
  have hfr : feeResolution env { t with subAccountId := none } =
      feeResolution env t := rfl
  refine ⟨hsub, ?_, ?_⟩
  · unfold getTransactionStatus
    dsimp only
    rw [hsid, hbal, hrb, hfr]
    rfl
  · intro hall
    unfold getTransactionStatus
    dsimp only
    rw [hall, hbal]
    simp

/-- Witness for claim C10: an account whose only sub-account does not
match the draft's `subAccountId`, in all-balance mode. -/
theorem subAccount_missing_fallback_witness :
    resolveSubAccount wSubMissAccount wAllDraft = none ∧
    getTransactionStatus wStatusEnv wSubMissAccount wAllDraft =
      { getTransactionStatus wStatusEnv wSubMissAccount
          { wAllDraft with subAccountId := none } with
        recipientIsReadOnly := true } ∧
    (getTransactionStatus wStatusEnv wSubMissAccount wAllDraft).totalSpent =
      wSubMissAccount.balance ∧
    (getTransactionStatus wStatusEnv wSubMissAccount wAllDraft).amount =
      wSubMissAccount.balance -
        (getTransactionStatus wStatusEnv wSubMissAccount
          wAllDraft).estimatedFees :=
  have h := subAccount_missing_fallback wStatusEnv wSubMissAccount wAllDraft
    "sub1" rfl (by decide)
  ⟨h.1, h.2.1, (h.2.2 rfl).1, (h.2.2 rfl).2⟩
